import Mathlib

/-!
Shallow embedding of `main.py` from the pshark repository (ASTERIX PCAP → CSV
batch converter) together with proofs about the claims of its specification.

The external decoder (`tshark`) is modelled, as the spec's design notes demand,
as an opaque function from a command line to a process result
`(returncode, stdout, stderr)`.  Python string primitives used by the source
(`str.strip`, `str.splitlines`, `str.split`, `pathlib.Path.name/.stem`,
dict comprehensions, `glob.glob`) are embedded as executable Lean functions
mirroring the CPython semantics that the source relies on.
-/

namespace Pshark

/-- Whitespace characters removed by Python `str.strip()` (the ASCII ones;
the source only ever strips `tshark` output and stderr text). -/
def pyIsSpace (c : Char) : Bool :=
  c = ' ' || c = '\t' || c = '\n' || c = '\x0d' || c = '\x0b' || c = '\x0c'

/-- Python `str.strip()`: drop leading and trailing whitespace. -/
def pyStrip (s : String) : String :=
  String.mk (((s.data.dropWhile pyIsSpace).reverse.dropWhile pyIsSpace).reverse)

/-- Line-break characters recognised by Python `str.splitlines()`
(ASCII range plus NEL and the Unicode line/paragraph separators). -/
def isLineBreak (c : Char) : Bool :=
  c = '\n' || c = '\x0d' || c = '\x0b' || c = '\x0c' ||
  c = '\x1c' || c = '\x1d' || c = '\x1e' || c = '\x85' ||
  c = '\u2028' || c = '\u2029'

/-- Python treats the two-character sequence CR LF as a single line break;
this rewrites every CR LF pair to a lone LF so a one-character-at-a-time
splitter sees exactly Python's breaks. -/
def normCrlf : List Char → List Char
  | [] => []
  | [c] => [c]
  | c :: c2 :: rest =>
    if c = '\x0d' && c2 = '\n' then '\n' :: normCrlf rest
    else c :: normCrlf (c2 :: rest)

/-- Worker for `pySplitlines`: split on single break characters,
accumulating the current line in reverse; a trailing break yields no
trailing empty line, matching Python. -/
def splitBreaks : List Char → List Char → List (List Char)
  | [], acc => if acc.isEmpty then [] else [acc.reverse]
  | c :: rest, acc =>
    if isLineBreak c then acc.reverse :: splitBreaks rest []
    else splitBreaks rest (c :: acc)

/-- Python `str.splitlines()` (no trailing empty line for a trailing
break; CR LF counts as one break). -/
def pySplitlines (s : String) : List String :=
  (splitBreaks (normCrlf s.data) []).map (fun cs => String.mk cs)

/-- Split a character list on a separator character, keeping empty pieces:
the behaviour of Python `str.split` with an explicit separator. -/
def splitCharAux (sep : Char) : List Char → List Char → List String
  | [], acc => [String.mk acc.reverse]
  | c :: rest, acc =>
    if c = sep then String.mk acc.reverse :: splitCharAux sep rest []
    else splitCharAux sep rest (c :: acc)

/-- Python `line.split(";")` (line 66 of `main.py`). -/
def pySplitSemi (s : String) : List String :=
  splitCharAux ';' s.data []

/-- Python `pathlib.PurePosixPath(p).name`: the final path component
(empty and `.` components are dropped by the PurePath normalisation). -/
def pyPathName (p : String) : String :=
  match ((splitCharAux '/' p.data []).filter (fun s => s ≠ "" && s ≠ ".")).reverse with
  | [] => ""
  | last :: _ => last

/-- Python `pathlib.PurePosixPath(p).stem`: the final component without its
last suffix; a leading dot or a trailing dot does not count as a suffix. -/
def pyPathStem (p : String) : String :=
  let nm := pyPathName p
  let cs := nm.data
  match cs.reverse.findIdx? (fun c => c = '.') with
  | none => nm
  | some j =>
    let i := cs.length - 1 - j
    if 0 < i ∧ i < cs.length - 1 then String.mk (cs.take i) else nm

/-- One entry of a category sub-table of `config.toml`: an output column
name (`Key`) and a tshark field expression (`Value`). -/
structure FieldEntry where
  Key : String
  Value : String
  deriving DecidableEq

/-- The `[tshark]` section of `config.toml`: binary path and passthrough
invocation parameters. -/
structure TsharkConfig where
  path : String
  parameters : List String
  deriving DecidableEq

/-- The loaded TOML configuration: the `categories` table (TOML keys are
unique, so an association list) and the tshark section. -/
structure Config where
  categories : List (String × List FieldEntry)
  tshark : TsharkConfig
  deriving DecidableEq

/-- Observable result of one decoder subprocess invocation
(`subprocess.run` with captured text output). -/
structure ProcResult where
  returncode : Int
  stdout : String
  stderr : String
  deriving DecidableEq

/-- Python exceptions that `generate_data_from_pcap` can let escape in the
modelled fragment: iterating `None` (absent category) raises `TypeError`. -/
inductive PyExc where
  | typeError
  deriving DecidableEq

/-- The CSV file written by one successful conversion: its name, header row
and data rows (cells exactly as handed to `csv.writer`). -/
structure CsvFile where
  name : String
  header : List String
  rows : List (List String)
  deriving DecidableEq

/-- What one task produces when it returns normally: the printed result
message and the output file, when one was written. -/
structure TaskOutput where
  message : String
  file : Option CsvFile
  deriving DecidableEq

/-- One conversion job of directory mode (the shared config is left
implicit, as it is identical for every job). -/
structure Job where
  filename : String
  category : String
  timestamp : Bool
  deriving DecidableEq

/-- One step of a Python dict comprehension: insert `(k, v)`, overwriting
the value in place when `k` is already present (CPython keeps the original
key object and the insertion position), appending otherwise. -/
def dictInsert (d : List (String × String)) (k v : String) : List (String × String) :=
  if d.any (fun p => p.1 == k) then
    d.map (fun p => if p.1 == k then (p.1, v) else p)
  else
    d ++ [(k, v)]

/-- The dict comprehension at line 18 of `main.py`:
`{item["Key"]: item["Value"] for item in categories}`. -/
def buildFieldsTable (items : List FieldEntry) : List (String × String) :=
  items.foldl (fun d it => dictInsert d it.Key it.Value) []

/-- The tshark command line built at lines 24–35 of `main.py`; `values` are
`fields_table.values()` in dict order. -/
def tsharkCmd (config : Config) (filename category : String) (timestamp : Bool)
    (values : List String) : List String :=
  let base := [config.tshark.path, "-r", filename] ++ config.tshark.parameters
    ++ ["-Y", "asterix.category==" ++ category]
  let base := if timestamp then base ++ ["-e", "frame.time_epoch"] else base
  values.foldl (fun cmd v => cmd ++ ["-e", v]) base

/-- The buffered row-writing loop at lines 54–72 of `main.py`: each line is
split on `;`, appended to the buffer, the buffer is flushed once it reaches
10000 rows, and any remainder is flushed at the end.  Returns the full
sequence of rows as they end up in the file. -/
def bufferFlush : List String → List (List String) → List (List String) → List (List String)
  | [], buffer, written =>
    if buffer.isEmpty then written else written ++ buffer
  | line :: rest, buffer, written =>
    if 10000 ≤ (buffer ++ [pySplitSemi line]).length then
      bufferFlush rest [] (written ++ (buffer ++ [pySplitSemi line]))
    else
      bufferFlush rest (buffer ++ [pySplitSemi line]) written

/-- Data rows produced from the stripped decoder output. -/
def bufferedRows (raw_data : String) : List (List String) :=
  bufferFlush (pySplitlines raw_data) [] []

/-- `csv` minimal quoting: a cell is quoted iff it contains the delimiter,
the quote character or a line-terminator character. -/
def csvNeedsQuote (cell : String) : Bool :=
  cell.data.any (fun c => c = ';' || c = '"' || c = '\x0d' || c = '\n')

/-- Double every quote character inside a quoted cell. -/
def csvEscape (cell : String) : String :=
  String.mk ((cell.data.map (fun c => if c = '"' then ['"', '"'] else [c])).flatten)

/-- Encode one cell under `csv.QUOTE_MINIMAL` with delimiter `;`. -/
def csvQuoteMinimal (cell : String) : String :=
  if csvNeedsQuote cell then "\"" ++ csvEscape cell ++ "\"" else cell

/-- Encode one row: `;`-joined cells plus the default CR LF terminator. -/
def csvRowLine (row : List String) : String :=
  String.intercalate (";") (row.map csvQuoteMinimal) ++ "\x0d\n"

/-- The exact bytes of the written CSV file: header row then data rows. -/
def csvSerialize (file : CsvFile) : String :=
  String.join ((file.header :: file.rows).map csvRowLine)

/-- Faithful translation of `generate_data_from_pcap` (lines 13–74 of
`main.py`).  `decoder` is the opaque subprocess boundary; `elapsed` stands
for the wall-clock reading formatted into the success message (the only
nondeterministic input besides the decoder).  `config["categories"].get`
yields `None` for an absent category, and the dict comprehension that
iterates it then raises `TypeError`, modelled by the `Except.error` arm. -/
def generate_data_from_pcap (decoder : List String → ProcResult) (elapsed : String)
    (filename category : String) (timestamp : Bool) (config : Config) :
    Except PyExc TaskOutput :=
  match config.categories.lookup category with
  | none => Except.error PyExc.typeError
  | some categories =>
    let fields_table := buildFieldsTable categories
    if fields_table.isEmpty then
      Except.ok ⟨"[ERROR] Table not found for CAT " ++ category, none⟩
    else
      let field_keys := fields_table.map Prod.fst
      let tshark_cmd := tsharkCmd config filename category timestamp (fields_table.map Prod.snd)
      let process := decoder tshark_cmd
      if process.returncode ≠ 0 then
        Except.ok ⟨"[ERROR] " ++ pyPathName filename ++ ": " ++ pyStrip process.stderr, none⟩
      else
        let raw_data := pyStrip process.stdout
        if raw_data = "" then
          Except.ok ⟨"[WARN] " ++ pyPathName filename ++ ": empty output", none⟩
        else
          let outfile := pyPathStem filename ++ ".csv"
          let header := if timestamp then "TIMESTAMP" :: field_keys else field_keys
          Except.ok ⟨"[OK] " ++ pyPathName filename ++ " → " ++ outfile
              ++ " (" ++ elapsed ++ "s)",
            some ⟨outfile, header, bufferedRows raw_data⟩⟩

/-- Default for the `--jobs` argument: `os.cpu_count() // 2`
(line 93 of `main.py`; no minimum is applied). -/
def defaultJobs (cpuCount : Nat) : Nat :=
  cpuCount / 2

/-- Whether an entry name begins with a dot (a hidden file). -/
def startsWithDot (e : String) : Bool :=
  match e.data with
  | [] => false
  | c :: _ => c = '.'

/-- Python `glob.glob(directory ++ "/*")` over the directory's entry names:
`*` matches every entry except hidden ones (names beginning with a dot). -/
def globStar (entries : List String) : List String :=
  entries.filter (fun e => !(startsWithDot e))

/-- Directory mode of the orchestrator (lines 110–120 of `main.py`): glob
the directory; `none` models the empty-listing warning with zero task
submissions, otherwise one job per globbed file. -/
def directoryJobs (entries : List String) (category : String) (timestamp : Bool) :
    Option (List Job) :=
  let files := globStar entries
  if files.isEmpty then none
  else some (files.map (fun f => Job.mk f category timestamp))

/-- Join lines with LF: a decoder output "consisting of these lines". -/
def joinLines : List String → String
  | [] => ""
  | [l] => l
  | l :: l2 :: ls => l ++ "\n" ++ joinLines (l2 :: ls)

/-- The result message of a task that returned normally. -/
def msgOf (r : Except PyExc TaskOutput) : Option String :=
  match r with
  | Except.ok o => some o.message
  | Except.error _ => none

/-- Name and exact bytes of the file a task run wrote, behind the task's
normal/raised distinction. -/
def fileBytesOf (r : Except PyExc TaskOutput) : Except PyExc (Option (String × String)) :=
  r.map (fun o => o.file.map (fun fl => (fl.name, csvSerialize fl)))

/-- A concrete configuration: category 48 with the two fields of the spec's
concrete scenario. -/
def cfg48 : Config :=
  ⟨[("48", [⟨"SAC", "asterix.048_010.SAC"⟩, ⟨"SIC", "asterix.048_010.SIC"⟩])],
   ⟨"/usr/bin/tshark", ["-T", "fields", "-E", "separator=;"]⟩⟩

/-- A concrete configuration whose categories table configures 21 only. -/
def cfgOnly21 : Config :=
  ⟨[("21", [⟨"K", "V"⟩])], ⟨"/usr/bin/tshark", []⟩⟩

/-- A concrete configuration where category 23 is present but has no
entries. -/
def cfgEmpty23 : Config :=
  ⟨[("23", [])], ⟨"/usr/bin/tshark", []⟩⟩

/-- A concrete configuration where category 48 repeats the key SAC. -/
def cfgDup48 : Config :=
  ⟨[("48", [⟨"SAC", "exprA"⟩, ⟨"SIC", "exprB"⟩, ⟨"SAC", "exprC"⟩])],
   ⟨"/usr/bin/tshark", []⟩⟩

/-- The buffering loop writes exactly the pending rows followed by the split
of every remaining line, whatever the flush boundaries. -/
theorem bufferFlush_eq (lines : List String) :
    ∀ buffer written : List (List String),
      bufferFlush lines buffer written
        = written ++ buffer ++ lines.map (fun l => pySplitSemi l) := by
  induction lines with
  | nil =>
    intro buffer written
    by_cases h : buffer.isEmpty
    · rw [List.isEmpty_iff] at h
      simp [bufferFlush, h]
    · simp [bufferFlush, h]
  | cons line rest ih =>
    intro buffer written
    by_cases h : 10000 ≤ (buffer ++ [pySplitSemi line]).length
    · simp only [bufferFlush, if_pos h, ih]
      simp [List.append_assoc]
    · simp only [bufferFlush, if_neg h, ih]
      simp [List.append_assoc]

/-- All rows of the output, in input order. -/
theorem bufferedRows_eq (raw_data : String) :
    bufferedRows raw_data = (pySplitlines raw_data).map (fun l => pySplitSemi l) := by
  simp [bufferedRows, bufferFlush_eq]

/-- Appending `-e v` for each value in a left fold flattens to the base
followed by one `-e` directive per value, in order. -/
theorem foldl_append_e (values : List String) :
    ∀ base : List String,
      values.foldl (fun cmd v => cmd ++ ["-e", v]) base
        = base ++ (values.map (fun v => ["-e", v])).flatten := by
  induction values with
  | nil => intro base; simp
  | cons v rest ih =>
    intro base
    simp only [List.foldl_cons, ih]
    simp [List.append_assoc]

/-- Inserting never yields an empty dict. -/
theorem dictInsert_ne_nil (d : List (String × String)) (k v : String) :
    dictInsert d k v ≠ [] := by
  unfold dictInsert
  split
  · intro h
    rename_i hany
    rw [List.map_eq_nil_iff] at h
    subst h
    simp at hany
  · simp

/-- A dict built from a non-empty entry list is non-empty. -/
theorem buildFieldsTable_ne_nil (items : List FieldEntry) (h : items ≠ []) :
    buildFieldsTable items ≠ [] := by
  have aux : ∀ (rest : List FieldEntry) (d : List (String × String)), d ≠ [] →
      rest.foldl (fun d it => dictInsert d it.Key it.Value) d ≠ [] := by
    intro rest
    induction rest with
    | nil => intro d hd; simpa using hd
    | cons it rest2 ih =>
      intro d hd
      simp only [List.foldl_cons]
      exact ih _ (dictInsert_ne_nil d it.Key it.Value)
  match items with
  | [] => exact absurd rfl h
  | it :: rest =>
    show (it :: rest).foldl (fun d it => dictInsert d it.Key it.Value) [] ≠ []
    rw [List.foldl_cons]
    exact aux rest (dictInsert [] it.Key it.Value) (dictInsert_ne_nil [] it.Key it.Value)

/-- Inserting a key that is not present appends the pair at the end. -/
theorem dictInsert_not_mem (d : List (String × String)) (k v : String)
    (h : ∀ p ∈ d, p.1 ≠ k) : dictInsert d k v = d ++ [(k, v)] := by
  unfold dictInsert
  have hany : d.any (fun p => p.1 == k) = false := by
    rw [List.any_eq_false]
    intro p hp
    simpa using h p hp
  simp [hany]

/-- When the entry keys are pairwise distinct, the dict comprehension keeps
every `(Key, Value)` pair in configured order. -/
theorem buildFieldsTable_of_nodup (items : List FieldEntry)
    (h : (items.map FieldEntry.Key).Nodup) :
    buildFieldsTable items = items.map (fun it => (it.Key, it.Value)) := by
  have aux : ∀ (rest : List FieldEntry) (d : List (String × String)),
      (rest.map FieldEntry.Key).Nodup →
      (∀ p ∈ d, ∀ it ∈ rest, p.1 ≠ it.Key) →
      rest.foldl (fun d it => dictInsert d it.Key it.Value) d
        = d ++ rest.map (fun it => (it.Key, it.Value)) := by
    intro rest
    induction rest with
    | nil => intro d _ _; simp
    | cons it rest2 ih =>
      intro d hnd hdisj
      simp only [List.foldl_cons]
      rw [dictInsert_not_mem d it.Key it.Value
        (fun p hp => hdisj p hp it (List.mem_cons_self it rest2))]
      rw [ih (d ++ [(it.Key, it.Value)])]
      · simp
      · simp only [List.map_cons, List.nodup_cons] at hnd
        exact hnd.2
      · intro p hp it2 hit2
        rcases List.mem_append.mp hp with hmem | hmem
        · exact hdisj p hmem it2 (List.mem_cons_of_mem it hit2)
        · have hp2 : p = (it.Key, it.Value) := by simpa using hmem
          rw [hp2]
          simp only [List.map_cons, List.nodup_cons] at hnd
          intro hkeq
          apply hnd.1
          rw [show it.Key = it2.Key from hkeq]
          exact List.mem_map_of_mem FieldEntry.Key hit2
  exact aux items [] h (by simp)

/-- Stripping a string of whitespace characters only yields the empty
string. -/
theorem pyStrip_all_space (s : String) (h : ∀ ch ∈ s.data, pyIsSpace ch = true) :
    pyStrip s = "" := by
  unfold pyStrip
  have h1 : s.data.dropWhile pyIsSpace = [] := by
    rw [List.dropWhile_eq_nil_iff]
    exact h
  rw [h1]
  rfl

/-- Rewriting CR LF pairs leaves a CR-free character list unchanged. -/
theorem normCrlf_no_cr : ∀ l : List Char, (∀ c ∈ l, ¬ c = '\x0d') → normCrlf l = l := by
  intro l
  induction l with
  | nil => intro _; rfl
  | cons c rest ih =>
    intro h
    cases rest with
    | nil => rfl
    | cons c2 rest2 =>
      have hc : ¬ c = '\x0d' := h c (List.mem_cons_self c (c2 :: rest2))
      have hcond : (c = '\x0d' && c2 = '\n') = false := by
        simp [hc]
      rw [show normCrlf (c :: c2 :: rest2)
          = if c = '\x0d' && c2 = '\n' then '\n' :: normCrlf rest2
            else c :: normCrlf (c2 :: rest2) from rfl]
      rw [hcond]
      simp only [Bool.false_eq_true, if_false]
      rw [ih (fun x hx => h x (List.mem_cons_of_mem c hx))]

/-- A break-free chunk at the front is moved into the accumulator whole. -/
theorem splitBreaks_chunk (l : List Char) (h : ∀ ch ∈ l, isLineBreak ch = false) :
    ∀ (rest acc : List Char),
      splitBreaks (l ++ rest) acc = splitBreaks rest (l.reverse ++ acc) := by
  induction l with
  | nil => intro rest acc; simp
  | cons ch l2 ih =>
    intro rest acc
    have hch : isLineBreak ch = false := h ch (List.mem_cons_self ch l2)
    rw [List.cons_append]
    have step : splitBreaks (ch :: (l2 ++ rest)) acc
        = splitBreaks (l2 ++ rest) (ch :: acc) := by
      simp [splitBreaks, hch]
    rw [step, ih (fun c hc => h c (List.mem_cons_of_mem ch hc)) rest (ch :: acc)]
    simp [List.append_assoc]

/-- A leading LF closes the accumulated line. -/
theorem splitBreaks_lf (rest acc : List Char) :
    splitBreaks ('\n' :: rest) acc = acc.reverse :: splitBreaks rest [] := by
  have h2 : isLineBreak '\n' = true := by decide
  simp [splitBreaks, h2]

/-- The LF-join of break-free lines contains no CR. -/
theorem joinLines_no_cr :
    ∀ lines : List String,
      (∀ l ∈ lines, ∀ ch ∈ l.data, isLineBreak ch = false) →
      ∀ ch ∈ (joinLines lines).data, ¬ ch = '\x0d' := by
  intro lines
  induction lines with
  | nil => intro _ ch hch; simp [joinLines] at hch
  | cons l rest ih =>
    intro h ch hch
    have hl := h l (List.mem_cons_self l rest)
    have hline : ∀ ch ∈ l.data, ¬ ch = '\x0d' := by
      intro x hx e
      have := hl x hx
      rw [e] at this
      simp [isLineBreak] at this
    cases rest with
    | nil => exact hline ch hch
    | cons l2 rest2 =>
      rw [show joinLines (l :: l2 :: rest2) = l ++ "\n" ++ joinLines (l2 :: rest2) from rfl] at hch
      simp only [String.data_append] at hch
      rcases List.mem_append.mp hch with hm | hm
      · rcases List.mem_append.mp hm with hm2 | hm2
        · exact hline ch hm2
        · intro e
          have : ch = '\n' := by simpa using hm2
          rw [this] at e
          exact absurd e (by decide)
      · exact ih (fun x hx => h x (List.mem_cons_of_mem l hx)) ch hm

/-- Splitting the LF-join of non-empty break-free lines recovers exactly
those lines. -/
theorem pySplitlines_joinLines (lines : List String) (hne : lines ≠ [])
    (h : ∀ l ∈ lines, l ≠ "" ∧ ∀ ch ∈ l.data, isLineBreak ch = false) :
    pySplitlines (joinLines lines) = lines := by
  induction lines with
  | nil => exact absurd rfl hne
  | cons l rest ih =>
    have hl := h l (List.mem_cons_self l rest)
    have hdata : l.data ≠ [] := by
      intro hd
      apply hl.1
      cases l
      simp_all
    have hnocr : normCrlf (joinLines (l :: rest)).data = (joinLines (l :: rest)).data :=
      normCrlf_no_cr _ (joinLines_no_cr (l :: rest) (fun x hx => (h x hx).2))
    cases rest with
    | nil =>
      show pySplitlines (joinLines [l]) = [l]
      have e : joinLines [l] = l := rfl
      unfold pySplitlines
      rw [e] at hnocr ⊢
      rw [hnocr]
      have e2 : splitBreaks l.data [] = [l.data] := by
        have e3 : splitBreaks (l.data ++ []) []
            = splitBreaks [] (l.data.reverse ++ []) :=
          splitBreaks_chunk l.data hl.2 [] []
        simp only [List.append_nil] at e3
        rw [e3]
        have hrev : l.data.reverse.isEmpty = false := by
          rw [List.isEmpty_eq_false]
          simpa using hdata
        simp [splitBreaks, hrev]
      rw [e2]
      simp
    | cons l2 rest2 =>
      have e : joinLines (l :: l2 :: rest2) = l ++ "\n" ++ joinLines (l2 :: rest2) := rfl
      unfold pySplitlines
      rw [hnocr, e]
      have edata : (l ++ "\n" ++ joinLines (l2 :: rest2)).data
          = l.data ++ ('\n' :: (joinLines (l2 :: rest2)).data) := by
        simp [String.data_append]
      rw [edata]
      rw [splitBreaks_chunk l.data hl.2 ('\n' :: (joinLines (l2 :: rest2)).data) []]
      rw [splitBreaks_lf]
      simp only [List.append_nil, List.reverse_reverse, List.map_cons]
      have ihres := ih (by simp) (fun x hx => h x (List.mem_cons_of_mem l hx))
      unfold pySplitlines at ihres
      rw [normCrlf_no_cr _ (joinLines_no_cr (l2 :: rest2)
        (fun x hx => (h x (List.mem_cons_of_mem l hx)).2))] at ihres
      rw [ihres]

/-- Shape of a fully successful task run: the `[OK]` message and the
written file with its name, header and buffered rows. -/
theorem gen_ok (pr : ProcResult) (e f c : String) (ts : Bool) (cfg : Config)
    (entries : List FieldEntry)
    (hcat : cfg.categories.lookup c = some entries) (hne : entries ≠ [])
    (hrc : pr.returncode = 0) (hraw : pyStrip pr.stdout ≠ "") :
    generate_data_from_pcap (fun _ => pr) e f c ts cfg =
      Except.ok ⟨"[OK] " ++ pyPathName f ++ " → " ++ (pyPathStem f ++ ".csv")
          ++ " (" ++ e ++ "s)",
        some ⟨pyPathStem f ++ ".csv",
          (if ts then "TIMESTAMP" :: (buildFieldsTable entries).map Prod.fst
           else (buildFieldsTable entries).map Prod.fst),
          bufferedRows (pyStrip pr.stdout)⟩⟩ := by
  have hempty : (buildFieldsTable entries).isEmpty = false := by
    rw [List.isEmpty_eq_false]
    exact buildFieldsTable_ne_nil entries hne
  simp [generate_data_from_pcap, hcat, hempty, hrc, hraw]

/-- The join of lines starting with a non-empty line is non-empty. -/
theorem joinLines_ne_empty (l : String) (rest : List String) (hl : l ≠ "") :
    joinLines (l :: rest) ≠ "" := by
  cases rest with
  | nil => exact hl
  | cons l2 rest2 =>
    intro heq
    have hdat : (joinLines (l :: l2 :: rest2)).data = [] := by
      rw [heq]
    rw [show joinLines (l :: l2 :: rest2) = l ++ "\n" ++ joinLines (l2 :: rest2) from rfl] at hdat
    simp [String.data_append] at hdat

/-- Shape of a schema-failure run: `[ERROR] Table not found`. -/
theorem gen_table_not_found (pr : ProcResult) (e f c : String) (ts : Bool)
    (cfg : Config) (hcat : cfg.categories.lookup c = some []) :
    generate_data_from_pcap (fun _ => pr) e f c ts cfg =
      Except.ok ⟨"[ERROR] Table not found for CAT " ++ c, none⟩ := by
  simp [generate_data_from_pcap, hcat, buildFieldsTable, List.isEmpty]

/-- C1: code bug.  For a category absent from the schema configuration the
task does not produce a SchemaNotFound-style Error result: iterating the
`None` returned by `config["categories"].get(category)` raises `TypeError`,
which propagates out of the task.  The empty-category case, by contrast,
does return the `[ERROR] Table not found` result, showing the absent case
is a slip in the code rather than the intent. -/
theorem c1_absent_category_raises :
    generate_data_from_pcap (fun _ => ⟨0, "1;2", ""⟩) ("0.00") ("a.pcap") ("23") false
        cfgOnly21 = Except.error PyExc.typeError ∧
    generate_data_from_pcap (fun _ => ⟨0, "1;2", ""⟩) ("0.00") ("a.pcap") ("23") false
        cfgEmpty23 = Except.ok ⟨"[ERROR] Table not found for CAT 23", none⟩ :=
  ⟨rfl, rfl⟩

/-- C4: a decoder invocation with nonzero exit status makes the task return
normally with an Error result message carrying the input file's base name
and the whitespace-trimmed standard-error text, and no output file is
written. -/
theorem c4_nonzero_exit_error (pr : ProcResult) (e f c : String) (ts : Bool)
    (cfg : Config) (entries : List FieldEntry)
    (hcat : cfg.categories.lookup c = some entries) (hne : entries ≠ [])
    (hrc : pr.returncode ≠ 0) :
    generate_data_from_pcap (fun _ => pr) e f c ts cfg =
      Except.ok ⟨"[ERROR] " ++ pyPathName f ++ ": " ++ pyStrip pr.stderr, none⟩ := by
  have hempty : (buildFieldsTable entries).isEmpty = false := by
    rw [List.isEmpty_eq_false]
    exact buildFieldsTable_ne_nil entries hne
  simp [generate_data_from_pcap, hcat, hempty, hrc]

/-- C4 witness: decoder exits 2 with stderr "  tshark: bad capture \n" on
`caps/a.pcap`. -/
theorem c4_witness :
    (cfg48.categories.lookup ("48")
      = some [⟨"SAC", "asterix.048_010.SAC"⟩, ⟨"SIC", "asterix.048_010.SIC"⟩]) ∧
    ([(⟨"SAC", "asterix.048_010.SAC"⟩ : FieldEntry), ⟨"SIC", "asterix.048_010.SIC"⟩] ≠ []) ∧
    ((2 : Int) ≠ 0) ∧
    generate_data_from_pcap (fun _ => ⟨2, "", "  tshark: bad capture \n"⟩) ("0.01")
        ("caps/a.pcap") ("48") false cfg48 =
      Except.ok ⟨"[ERROR] a.pcap: tshark: bad capture", none⟩ :=
  ⟨rfl, by decide, by decide,
    c4_nonzero_exit_error ⟨2, "", "  tshark: bad capture \n"⟩ ("0.01") ("caps/a.pcap")
      ("48") false cfg48
      [⟨"SAC", "asterix.048_010.SAC"⟩, ⟨"SIC", "asterix.048_010.SIC"⟩]
      rfl (by decide) (by decide)⟩

/-- C5: a decoder invocation that exits 0 with empty or whitespace-only
standard output makes the task return a Warning result ("empty output"),
and no output file is written. -/
theorem c5_blank_output_warning (pr : ProcResult) (e f c : String) (ts : Bool)
    (cfg : Config) (entries : List FieldEntry)
    (hcat : cfg.categories.lookup c = some entries) (hne : entries ≠ [])
    (hrc : pr.returncode = 0)
    (hblank : ∀ ch ∈ pr.stdout.data, pyIsSpace ch = true) :
    generate_data_from_pcap (fun _ => pr) e f c ts cfg =
      Except.ok ⟨"[WARN] " ++ pyPathName f ++ ": empty output", none⟩ := by
  have hraw : pyStrip pr.stdout = "" := pyStrip_all_space pr.stdout hblank
  have hempty : (buildFieldsTable entries).isEmpty = false := by
    rw [List.isEmpty_eq_false]
    exact buildFieldsTable_ne_nil entries hne
  simp [generate_data_from_pcap, hcat, hempty, hrc, hraw]

/-- C5 witness: decoder exits 0 with whitespace-only output " \n\t". -/
theorem c5_witness :
    (cfg48.categories.lookup ("48")
      = some [⟨"SAC", "asterix.048_010.SAC"⟩, ⟨"SIC", "asterix.048_010.SIC"⟩]) ∧
    ([(⟨"SAC", "asterix.048_010.SAC"⟩ : FieldEntry), ⟨"SIC", "asterix.048_010.SIC"⟩] ≠ []) ∧
    ((0 : Int) = 0) ∧
    (∀ ch ∈ (" \n\t" : String).data, pyIsSpace ch = true) ∧
    generate_data_from_pcap (fun _ => ⟨0, " \n\t", ""⟩) ("0.01")
        ("a.pcap") ("48") true cfg48 =
      Except.ok ⟨"[WARN] a.pcap: empty output", none⟩ :=
  ⟨rfl, by decide, rfl, by decide,
    c5_blank_output_warning ⟨0, " \n\t", ""⟩ ("0.01") ("a.pcap") ("48") true cfg48
      [⟨"SAC", "asterix.048_010.SAC"⟩, ⟨"SIC", "asterix.048_010.SIC"⟩]
      rfl (by decide) rfl (by decide)⟩

/-- C6 counterexample: with a single processing unit the default pool size
is `1 // 2 = 0`, not at least 1 as the claim states. -/
theorem c6_counterexample : defaultJobs 1 = 0 ∧ ¬ (1 ≤ defaultJobs 1) := by
  decide

/-- C6 (amended): the default pool size is half the processing units
rounded down, which is at least 1 only when at least two processing units
are available. -/
theorem c6_default_half (cpu : Nat) (h : 2 ≤ cpu) :
    1 ≤ defaultJobs cpu ∧ defaultJobs cpu = cpu / 2 := by
  unfold defaultJobs
  exact ⟨by omega, rfl⟩

/-- C6 witness: four processing units give a default pool of 2. -/
theorem c6_witness : (2 ≤ 4) ∧ (1 ≤ defaultJobs 4 ∧ defaultJobs 4 = 4 / 2) :=
  ⟨by decide, c6_default_half 4 (by decide)⟩

/-- C7 counterexample: a directory whose single entry is the hidden file
".hidden" yields the empty-directory warning and zero submitted jobs, even
though the directory has one entry — `glob(dir + "/*")` skips hidden
entries, so not every directory entry becomes a candidate input. -/
theorem c7_counterexample :
    directoryJobs [".hidden"] ("48") false = none ∧
    ([".hidden"] : List String).length = 1 :=
  ⟨rfl, rfl⟩

/-- C7 (amended): directory mode lists entries non-recursively with no
extension filtering, but hidden entries (names beginning with a dot) are
excluded by the glob; one job per remaining entry, in listing order, and
when nothing matches (in particular for an empty listing) it reports a
warning and submits zero jobs. -/
theorem c7_directory_jobs (entries : List String) (c : String) (ts : Bool) :
    directoryJobs entries c ts =
      (if (entries.filter (fun e => !(startsWithDot e))).isEmpty then none
       else some ((entries.filter (fun e => !(startsWithDot e))).map
         (fun f => Job.mk f c ts))) ∧
    directoryJobs [] c ts = none :=
  ⟨rfl, rfl⟩

/-- C8: the decoder command line is the binary and input file, the
passthrough parameters, the category filter expression, then — iff the
timestamp flag is set — a single timestamp output directive, then one
output directive per resolved field expression in resolved order. -/
theorem c8_cmd_structure (cfg : Config) (f c : String) (ts : Bool)
    (values : List String) :
    tsharkCmd cfg f c ts values =
      [cfg.tshark.path, "-r", f] ++ cfg.tshark.parameters
        ++ ["-Y", "asterix.category==" ++ c]
        ++ (if ts then ["-e", "frame.time_epoch"] else [])
        ++ (values.map (fun v => ["-e", v])).flatten := by
  unfold tsharkCmd
  rw [foldl_append_e]
  cases ts
  · simp [List.append_assoc]
  · simp [List.append_assoc]

/-- C2 counterexample: the decoder output " \na" consists of the two
non-empty lines " " and "a", yet the written file contains a single data
row — the whole-output strip removes the leading whitespace-only line
before splitting, so the claim fails as stated. -/
theorem c2_counterexample :
    joinLines [" ", "a"] = " \na" ∧
    (∀ l ∈ ([" ", "a"] : List String), l ≠ "") ∧
    (∃ out : TaskOutput, ∃ file : CsvFile,
      generate_data_from_pcap (fun _ => ⟨0, " \na", ""⟩) ("0.01") ("a.pcap") ("48")
          false cfg48 = Except.ok out ∧
      out.file = some file ∧ file.rows = [["a"]] ∧ file.rows.length ≠ 2) :=
  ⟨rfl, by decide, ⟨_, _, rfl, rfl, rfl, by decide⟩⟩

/-- C2 (amended): for every decoder output that is the LF-join of N
non-empty, line-break-free lines and carries no surrounding whitespace, the
written file contains exactly N data rows, each the `;`-split of its line,
in the order received — proved for every N at once, hence in particular
for 9999, 10000 and 10001 rows around the buffer threshold. -/
theorem c2_rows_in_order (pr : ProcResult) (e f c : String) (ts : Bool)
    (cfg : Config) (entries : List FieldEntry) (lines : List String)
    (hcat : cfg.categories.lookup c = some entries) (hne : entries ≠ [])
    (hrc : pr.returncode = 0) (hout : pr.stdout = joinLines lines)
    (hlines : lines ≠ [])
    (hchars : ∀ l ∈ lines, l ≠ "" ∧ ∀ ch ∈ l.data, isLineBreak ch = false)
    (hstrip : pyStrip (joinLines lines) = joinLines lines) :
    ∃ out : TaskOutput, ∃ file : CsvFile,
      generate_data_from_pcap (fun _ => pr) e f c ts cfg = Except.ok out ∧
      out.file = some file ∧
      file.rows = lines.map (fun l => pySplitSemi l) ∧
      file.rows.length = lines.length := by
  have hjoin : joinLines lines ≠ "" := by
    cases lines with
    | nil => exact absurd rfl hlines
    | cons l rest =>
      exact joinLines_ne_empty l rest (hchars l (List.mem_cons_self l rest)).1
  have hraw : pyStrip pr.stdout ≠ "" := by
    rw [hout, hstrip]
    exact hjoin
  have hrows : bufferedRows (pyStrip pr.stdout) = lines.map (fun l => pySplitSemi l) := by
    rw [hout, hstrip, bufferedRows_eq, pySplitlines_joinLines lines hlines hchars]
  refine ⟨_, _, gen_ok pr e f c ts cfg entries hcat hne hrc hraw, rfl, ?_, ?_⟩
  · exact hrows
  · show (bufferedRows (pyStrip pr.stdout)).length = lines.length
    rw [hrows]
    simp

/-- C2 witness: the spec's concrete scenario, two lines "1;2" and "3;4". -/
theorem c2_witness :
    (cfg48.categories.lookup ("48")
      = some [⟨"SAC", "asterix.048_010.SAC"⟩, ⟨"SIC", "asterix.048_010.SIC"⟩]) ∧
    ([(⟨"SAC", "asterix.048_010.SAC"⟩ : FieldEntry), ⟨"SIC", "asterix.048_010.SIC"⟩] ≠ []) ∧
    ((0 : Int) = 0) ∧
    (("1;2\n3;4" : String) = joinLines ["1;2", "3;4"]) ∧
    ((["1;2", "3;4"] : List String) ≠ []) ∧
    (∀ l ∈ (["1;2", "3;4"] : List String),
      l ≠ "" ∧ ∀ ch ∈ l.data, isLineBreak ch = false) ∧
    (pyStrip (joinLines ["1;2", "3;4"]) = joinLines ["1;2", "3;4"]) ∧
    (∃ out : TaskOutput, ∃ file : CsvFile,
      generate_data_from_pcap (fun _ => ⟨0, "1;2\n3;4", ""⟩) ("0.01") ("a.pcap")
          ("48") false cfg48 = Except.ok out ∧
      out.file = some file ∧
      file.rows = (["1;2", "3;4"] : List String).map (fun l => pySplitSemi l) ∧
      file.rows.length = (["1;2", "3;4"] : List String).length) :=
  ⟨rfl, by decide, rfl, rfl, by decide, by decide, by decide,
    c2_rows_in_order ⟨0, "1;2\n3;4", ""⟩ ("0.01") ("a.pcap") ("48") false cfg48
      [⟨"SAC", "asterix.048_010.SAC"⟩, ⟨"SIC", "asterix.048_010.SIC"⟩]
      ["1;2", "3;4"] rfl (by decide) rfl rfl (by decide) (by decide) (by decide)⟩

/-- C3 counterexample: with category 48 configured as SAC, SIC, SAC (a
duplicated key), the header collapses to SAC;SIC — not the configured keys
in configured order — because the dict comprehension deduplicates keys. -/
theorem c3_counterexample :
    cfgDup48.categories.lookup ("48")
      = some [⟨"SAC", "exprA"⟩, ⟨"SIC", "exprB"⟩, ⟨"SAC", "exprC"⟩] ∧
    (∃ out : TaskOutput, ∃ file : CsvFile,
      generate_data_from_pcap (fun _ => ⟨0, "1;2", ""⟩) ("0.01") ("a.pcap") ("48")
          false cfgDup48 = Except.ok out ∧
      out.file = some file ∧
      file.header = ["SAC", "SIC"] ∧
      file.header ≠ ["SAC", "SIC", "SAC"]) :=
  ⟨rfl, ⟨_, _, rfl, rfl, rfl, by decide⟩⟩

/-- C3 (amended): for every configured category whose keys are pairwise
distinct, the header row contains exactly the configured keys in
configured order, with TIMESTAMP prepended iff the timestamp flag is
set. -/
theorem c3_header_keys (pr : ProcResult) (e f c : String) (ts : Bool)
    (cfg : Config) (entries : List FieldEntry)
    (hcat : cfg.categories.lookup c = some entries) (hne : entries ≠ [])
    (hnodup : (entries.map FieldEntry.Key).Nodup)
    (hrc : pr.returncode = 0) (hraw : pyStrip pr.stdout ≠ "") :
    ∃ out : TaskOutput, ∃ file : CsvFile,
      generate_data_from_pcap (fun _ => pr) e f c ts cfg = Except.ok out ∧
      out.file = some file ∧
      file.header = (if ts then ["TIMESTAMP"] else []) ++ entries.map FieldEntry.Key := by
  refine ⟨_, _, gen_ok pr e f c ts cfg entries hcat hne hrc hraw, rfl, ?_⟩
  show (if ts then "TIMESTAMP" :: (buildFieldsTable entries).map Prod.fst
        else (buildFieldsTable entries).map Prod.fst)
      = (if ts then ["TIMESTAMP"] else []) ++ entries.map FieldEntry.Key
  rw [buildFieldsTable_of_nodup entries hnodup]
  cases ts
  · simp [List.map_map, Function.comp]
  · simp [List.map_map, Function.comp]

/-- C3 witness: the spec's timestamped scenario with category 48. -/
theorem c3_witness :
    (cfg48.categories.lookup ("48")
      = some [⟨"SAC", "asterix.048_010.SAC"⟩, ⟨"SIC", "asterix.048_010.SIC"⟩]) ∧
    ([(⟨"SAC", "asterix.048_010.SAC"⟩ : FieldEntry), ⟨"SIC", "asterix.048_010.SIC"⟩] ≠ []) ∧
    (([(⟨"SAC", "asterix.048_010.SAC"⟩ : FieldEntry), ⟨"SIC", "asterix.048_010.SIC"⟩].map
        FieldEntry.Key).Nodup) ∧
    ((0 : Int) = 0) ∧
    (pyStrip ("100.5;1;2") ≠ "") ∧
    (∃ out : TaskOutput, ∃ file : CsvFile,
      generate_data_from_pcap (fun _ => ⟨0, "100.5;1;2", ""⟩) ("0.01") ("a.pcap")
          ("48") true cfg48 = Except.ok out ∧
      out.file = some file ∧
      file.header = (if true then ["TIMESTAMP"] else [])
        ++ [(⟨"SAC", "asterix.048_010.SAC"⟩ : FieldEntry),
            ⟨"SIC", "asterix.048_010.SIC"⟩].map FieldEntry.Key) :=
  ⟨rfl, by decide, by decide, rfl, by decide,
    c3_header_keys ⟨0, "100.5;1;2", ""⟩ ("0.01") ("a.pcap") ("48") true cfg48
      [⟨"SAC", "asterix.048_010.SAC"⟩, ⟨"SIC", "asterix.048_010.SIC"⟩]
      rfl (by decide) (by decide) rfl (by decide)⟩

/-- C9: with the decoder and all inputs fixed, re-running the task writes
an identical output file (same name, same exact bytes); the result message
is either identical or differs only in the elapsed-time text spliced into
the `[OK]` message. -/
theorem c9_idempotent (decoder : List String → ProcResult) (f c : String)
    (ts : Bool) (cfg : Config) (e1 e2 : String) :
    fileBytesOf (generate_data_from_pcap decoder e1 f c ts cfg)
      = fileBytesOf (generate_data_from_pcap decoder e2 f c ts cfg) ∧
    (msgOf (generate_data_from_pcap decoder e1 f c ts cfg)
        = msgOf (generate_data_from_pcap decoder e2 f c ts cfg) ∨
     ∃ pre : String,
       msgOf (generate_data_from_pcap decoder e1 f c ts cfg)
          = some (pre ++ e1 ++ "s)") ∧
       msgOf (generate_data_from_pcap decoder e2 f c ts cfg)
          = some (pre ++ e2 ++ "s)")) := by
  cases hcat : cfg.categories.lookup c with
  | none =>
    simp [generate_data_from_pcap, hcat, fileBytesOf, msgOf]
  | some entries =>
    by_cases h1 : (buildFieldsTable entries).isEmpty
    · simp [generate_data_from_pcap, hcat, h1, fileBytesOf, msgOf]
    · by_cases h2 : (decoder (tsharkCmd cfg f c ts
          ((buildFieldsTable entries).map Prod.snd))).returncode = 0
      · by_cases h3 : pyStrip (decoder (tsharkCmd cfg f c ts
            ((buildFieldsTable entries).map Prod.snd))).stdout = ""
        · simp [generate_data_from_pcap, hcat, h1, h2, h3, fileBytesOf, msgOf]
        · constructor
          · simp [generate_data_from_pcap, hcat, h1, h2, h3, fileBytesOf, Except.map]
          · apply Or.inr
            refine ⟨"[OK] " ++ pyPathName f ++ " → " ++ (pyPathStem f ++ ".csv")
              ++ " (", ?_, ?_⟩
            · simp [generate_data_from_pcap, hcat, h1, h2, h3, msgOf]
            · simp [generate_data_from_pcap, hcat, h1, h2, h3, msgOf]
      · simp [generate_data_from_pcap, hcat, h1, h2, fileBytesOf, msgOf]

/-- C10: the writer performs no per-row column-count validation: every data
row is exactly the `;`-split of its line of (stripped) decoder output,
whatever the number of header columns — rows are written verbatim, never
padded or truncated. -/
theorem c10_rows_verbatim (pr : ProcResult) (e f c : String) (ts : Bool)
    (cfg : Config) (entries : List FieldEntry)
    (hcat : cfg.categories.lookup c = some entries) (hne : entries ≠ [])
    (hrc : pr.returncode = 0) (hraw : pyStrip pr.stdout ≠ "") :
    ∃ out : TaskOutput, ∃ file : CsvFile,
      generate_data_from_pcap (fun _ => pr) e f c ts cfg = Except.ok out ∧
      out.file = some file ∧
      file.rows = (pySplitlines (pyStrip pr.stdout)).map (fun l => pySplitSemi l) ∧
      file.rows.length = (pySplitlines (pyStrip pr.stdout)).length := by
  refine ⟨_, _, gen_ok pr e f c ts cfg entries hcat hne hrc hraw, rfl, ?_, ?_⟩
  · exact bufferedRows_eq (pyStrip pr.stdout)
  · show (bufferedRows (pyStrip pr.stdout)).length = (pySplitlines (pyStrip pr.stdout)).length
    rw [bufferedRows_eq]
    simp

/-- C10 witness: the line "1;2;3" yields a three-cell row under the
two-column SAC;SIC header, written verbatim. -/
theorem c10_witness :
    (cfg48.categories.lookup ("48")
      = some [⟨"SAC", "asterix.048_010.SAC"⟩, ⟨"SIC", "asterix.048_010.SIC"⟩]) ∧
    ([(⟨"SAC", "asterix.048_010.SAC"⟩ : FieldEntry), ⟨"SIC", "asterix.048_010.SIC"⟩] ≠ []) ∧
    ((0 : Int) = 0) ∧
    (pyStrip ("1;2;3\n4") ≠ "") ∧
    (∃ out : TaskOutput, ∃ file : CsvFile,
      generate_data_from_pcap (fun _ => ⟨0, "1;2;3\n4", ""⟩) ("0.01") ("a.pcap")
          ("48") false cfg48 = Except.ok out ∧
      out.file = some file ∧
      file.rows = (pySplitlines (pyStrip ("1;2;3\n4"))).map (fun l => pySplitSemi l) ∧
      file.rows.length = (pySplitlines (pyStrip ("1;2;3\n4"))).length) :=
  ⟨rfl, by decide, rfl, by decide,
    c10_rows_verbatim ⟨0, "1;2;3\n4", ""⟩ ("0.01") ("a.pcap") ("48") false cfg48
      [⟨"SAC", "asterix.048_010.SAC"⟩, ⟨"SIC", "asterix.048_010.SIC"⟩]
      rfl (by decide) rfl (by decide)⟩

end Pshark
